import Mathlib

/-!
Verification development for the pixalate-brandsafety image classification
pipeline.  The Python sources are shallowly embedded: pure string processing
(`str.split`, `str.strip`, `in`, `json.loads`) is modelled over `List Char`,
stateful code (filesystem writes/removals) is modelled by explicit state
passing over an association-list filesystem, exceptions are modelled with
`Except`, and the opaque collaborators (uploaded byte streams, HTTP fetches,
the remote OpenAI call, I/O failures, wall-clock timings) are supplied as
oracle parameters so theorems quantify over their behaviours.
Floating-point timing values are treated as opaque `Json` values; the image
resize arithmetic (Python floats) is modelled with exact rationals.
-/

set_option synthInstance.maxHeartbeats 1000000
set_option maxHeartbeats 1000000

/-- Python strings are modelled as lists of characters. -/
abbrev PyStr := List Char

/-- Embed a Lean string literal into the model's string type. -/
def pstr (s : String) : PyStr := s.toList

/-- Index of the first occurrence of `sep` as a contiguous substring of `s`
(Python `str.find`). `none` when `sep` does not occur. -/
def findSub (sep : PyStr) : PyStr → Option Nat
  | [] => if sep.isPrefixOf ([] : PyStr) then some 0 else none
  | c :: rest =>
    if sep.isPrefixOf (c :: rest) then some 0
    else (findSub sep rest).map (· + 1)

/-- Python's `sep in s` substring test. -/
def pyIn (sep s : PyStr) : Bool := (findSub sep s).isSome

/-- Fuelled worker for `pySplit`; fuel `s.length + 1` always suffices because
each recursive step consumes at least one character of `s`. -/
def pySplitF : Nat → PyStr → PyStr → List PyStr
  | 0, _, s => [s]
  | f + 1, sep, s =>
    match findSub sep s with
    | none => [s]
    | some i => s.take i :: pySplitF f sep (s.drop (i + sep.length))

/-- Python `s.split(sep)` for a non-empty separator: split at every
non-overlapping occurrence of `sep`, scanning left to right. -/
def pySplit (sep s : PyStr) : List PyStr := pySplitF (s.length + 1) sep s

/-- Python's default whitespace set for `str.strip`. -/
def isPySpace (c : Char) : Bool :=
  c = ' ' || c = '\t' || c = '\n' || c = '\r' || c = '\x0b' || c = '\x0c'

/-- Python `s.lstrip()`. -/
def pyLStrip (s : PyStr) : PyStr := s.dropWhile isPySpace

/-- Python `s.rstrip()`. -/
def pyRStrip (s : PyStr) : PyStr := (s.reverse.dropWhile isPySpace).reverse

/-- Python `s.strip()`. -/
def pyStrip (s : PyStr) : PyStr := pyRStrip (pyLStrip s)

/-- Python `s.lower()` (all characters in this code base are ASCII, where
`Char.toLower` agrees with Python). -/
def pyLower (s : PyStr) : PyStr := s.map Char.toLower

/-- JSON values as produced by Python's `json.loads`.  Number tokens are kept
as their source lexemes (no claim depends on numeric value), and object
fields keep insertion order, as Python dicts do. -/
inductive Json where
  | null : Json
  | bool (b : Bool) : Json
  | num (lexeme : PyStr) : Json
  | str (s : PyStr) : Json
  | arr (items : List Json) : Json
  | obj (fields : List (PyStr × Json)) : Json

/-- The field list of a Python dict result. -/
abbrev JsonObj := List (PyStr × Json)

/-- Python `d[k]` lookup (first, and only, binding of `k`). -/
def objGet (o : JsonObj) (k : PyStr) : Option Json :=
  match o with
  | [] => none
  | (k', v) :: rest => if k' = k then some v else objGet rest k

/-- Python `k in d`. -/
def objHasKey (o : JsonObj) (k : PyStr) : Bool := (objGet o k).isSome

/-- Python `d[k] = v`: replace the value in place if the key is present
(keeping its position), otherwise append the new binding. -/
def objSet (o : JsonObj) (k : PyStr) (v : Json) : JsonObj :=
  match o with
  | [] => [(k, v)]
  | (k', v') :: rest =>
    if k' = k then (k', v) :: rest else (k', v') :: objSet rest k v

/-- JSON inter-token whitespace accepted by `json.loads`. -/
def isJsonWs (c : Char) : Bool := c = ' ' || c = '\t' || c = '\n' || c = '\r'

/-- Skip JSON whitespace. -/
def skipWs (s : PyStr) : PyStr := s.dropWhile isJsonWs

/-- Value of a hexadecimal digit. -/
def hexVal (c : Char) : Nat :=
  if '0' ≤ c ∧ c ≤ '9' then c.toNat - 48
  else if 'a' ≤ c ∧ c ≤ 'f' then c.toNat - 87
  else if 'A' ≤ c ∧ c ≤ 'F' then c.toNat - 55
  else 0

/-- Hexadecimal digit test. -/
def isHexDigitCh (c : Char) : Bool :=
  c.isDigit || ('a' ≤ c && c ≤ 'f') || ('A' ≤ c && c ≤ 'F')

/-- Single-character JSON string escapes. -/
def escChar (c : Char) : Option Char :=
  if c = '"' then some '"'
  else if c = '\\' then some '\\'
  else if c = '/' then some '/'
  else if c = 'b' then some '\x08'
  else if c = 'f' then some '\x0c'
  else if c = 'n' then some '\n'
  else if c = 'r' then some '\r'
  else if c = 't' then some '\t'
  else none

/-- Parse the body of a JSON string (the opening quote already consumed);
returns the decoded characters and the remainder after the closing quote.
Mirrors `json.loads` strict mode: raw control characters are rejected,
`\uXXXX` escapes are decoded (code points outside Lean's `Char` range fall
back to `\0`, which no claim depends on). -/
def pjString : PyStr → Option (PyStr × PyStr)
  | [] => none
  | c :: rest =>
    if c = '"' then some ([], rest)
    else if c = '\\' then
      match rest with
      | 'u' :: h1 :: h2 :: h3 :: h4 :: rest2 =>
        if isHexDigitCh h1 && isHexDigitCh h2 && isHexDigitCh h3 && isHexDigitCh h4 then
          (pjString rest2).map fun (cs, r) =>
            (Char.ofNat (((hexVal h1 * 16 + hexVal h2) * 16 + hexVal h3) * 16 + hexVal h4) :: cs, r)
        else none
      | e :: rest2 =>
        match escChar e with
        | some ch => (pjString rest2).map fun (cs, r) => (ch :: cs, r)
        | none => none
      | [] => none
    else if c.toNat < 32 then none
    else (pjString rest).map fun (cs, r) => (c :: cs, r)

/-- Scan a JSON number lexeme (`-? (0|[1-9][0-9]*) frac? exp?`). -/
def pjNumber (s : PyStr) : Option (PyStr × PyStr) :=
  let (neg, s1) : PyStr × PyStr :=
    match s with
    | '-' :: r => (['-'], r)
    | _ => ([], s)
  let intPart : Option (PyStr × PyStr) :=
    match s1 with
    | '0' :: r => some (['0'], r)
    | c :: r =>
      if c.isDigit then some (c :: r.takeWhile Char.isDigit, r.dropWhile Char.isDigit)
      else none
    | [] => none
  match intPart with
  | none => none
  | some (ip, s2) =>
    let (fp, s3) : PyStr × PyStr :=
      match s2 with
      | '.' :: r =>
        if (r.takeWhile Char.isDigit) = [] then ([], s2)
        else ('.' :: r.takeWhile Char.isDigit, r.dropWhile Char.isDigit)
      | _ => ([], s2)
    let fracBad : Bool :=
      match s2 with
      | '.' :: r => (r.takeWhile Char.isDigit) = []
      | _ => false
    if fracBad then none
    else
      match s3 with
      | e :: r =>
        if e = 'e' ∨ e = 'E' then
          let (sgn, r2) : PyStr × PyStr :=
            match r with
            | '+' :: r' => (['+'], r')
            | '-' :: r' => (['-'], r')
            | _ => ([], r)
          let ds := r2.takeWhile Char.isDigit
          if ds = [] then none
          else some (neg ++ ip ++ fp ++ e :: sgn ++ ds, r2.dropWhile Char.isDigit)
        else some (neg ++ ip ++ fp, s3)
      | [] => some (neg ++ ip ++ fp, s3)

mutual

/-- Parse one JSON value (leading whitespace allowed), returning the value and
the unconsumed remainder.  Fuelled; fuel is decremented on every mutual call
and at least one character is consumed per decrement, so `length + 1` fuel
suffices at top level. -/
def pjValue : Nat → PyStr → Option (Json × PyStr)
  | 0, _ => none
  | f + 1, s0 =>
    let s := skipWs s0
    match s with
    | [] => none
    | '{' :: rest =>
      match skipWs rest with
      | '}' :: r2 => some (.obj [], r2)
      | r2 => pjMembers f r2 []
    | '[' :: rest =>
      match skipWs rest with
      | ']' :: r2 => some (.arr [], r2)
      | r2 => pjItems f r2 []
    | '"' :: rest => (pjString rest).map fun (cs, r) => (.str cs, r)
    | s' =>
      if (pstr "true").isPrefixOf s' then some (.bool true, s'.drop 4)
      else if (pstr "false").isPrefixOf s' then some (.bool false, s'.drop 5)
      else if (pstr "null").isPrefixOf s' then some (.null, s'.drop 4)
      else if (pstr "NaN").isPrefixOf s' then some (.num (pstr "NaN"), s'.drop 3)
      else if (pstr "Infinity").isPrefixOf s' then some (.num (pstr "Infinity"), s'.drop 8)
      else if (pstr "-Infinity").isPrefixOf s' then some (.num (pstr "-Infinity"), s'.drop 9)
      else (pjNumber s').map fun (lex, r) => (.num lex, r)

/-- Parse the members of a JSON object after `{` (at least one member). -/
def pjMembers : Nat → PyStr → JsonObj → Option (Json × PyStr)
  | 0, _, _ => none
  | f + 1, s, acc =>
    match s with
    | '"' :: rest =>
      match pjString rest with
      | none => none
      | some (key, r1) =>
        match skipWs r1 with
        | ':' :: r2 =>
          match pjValue f r2 with
          | none => none
          | some (v, r3) =>
            match skipWs r3 with
            | ',' :: r4 =>
              match skipWs r4 with
              | r5 => pjMembers f r5 (objSet acc key v)
            | '}' :: r4 => some (.obj (objSet acc key v), r4)
            | _ => none
        | _ => none
    | _ => none

/-- Parse the items of a JSON array after `[` (at least one item). -/
def pjItems : Nat → PyStr → List Json → Option (Json × PyStr)
  | 0, _, _ => none
  | f + 1, s, acc =>
    match pjValue f s with
    | none => none
    | some (v, r1) =>
      match skipWs r1 with
      | ',' :: r2 => pjItems f r2 (acc ++ [v])
      | ']' :: r2 => some (.arr (acc ++ [v]), r2)
      | _ => none

end

/-- Python `json.loads` in strict mode: parse one value and require only
whitespace to remain.  `none` models `json.JSONDecodeError`. -/
def pyJsonLoads (s : PyStr) : Option Json :=
  match pjValue (s.length + 1) s with
  | some (v, rest) => if skipWs rest = [] then some v else none
  | none => none

/-! ## Configuration (`app/core/config.py`, defaults) -/

/-- `settings.MAX_IMAGE_SIZE` (10 MiB). -/
def MAX_IMAGE_SIZE : Nat := 10 * 1024 * 1024

/-- `settings.SUPPORTED_FORMATS`. -/
def SUPPORTED_FORMATS : List PyStr := [pstr "jpg", pstr "jpeg", pstr "png", pstr "webp"]

/-- `settings.DATA_DIR` (default configuration value). -/
def DATA_DIR : PyStr := pstr "data"

/-! ## Data model for stored images

A decoded PIL image is abstracted by its observable attributes used in
`app/utils/image_utils.py`; a stored file is the pair of what `Image.open`
yields on its bytes (`none` when opening raises) and its byte size. -/

structure PILImage where
  format : Option PyStr
  mode : PyStr
  width : Nat
  height : Nat
deriving DecidableEq

structure StoredFile where
  image : Option PILImage
  sizeBytes : Nat
deriving DecidableEq

/-- Parameters of the `img.save(image_path, "JPEG", quality=85)` call that
`normalize_image` performs, recorded as evidence of the re-encoding. -/
structure SaveParams where
  fileFormat : PyStr
  quality : Nat
deriving DecidableEq

/-! ## `app/utils/image_utils.py` -/

namespace image_utils

/-- `is_valid_image`: open the stored bytes (`none` = decode exception →
`False`); reject when the detected format, lowercased, is outside
`SUPPORTED_FORMATS`; reject when the byte size exceeds `MAX_IMAGE_SIZE`. -/
def is_valid_image (f : StoredFile) : Bool :=
  match f.image with
  | none => false
  | some img =>
    if (match img.format with
        | some fmt => !(SUPPORTED_FORMATS.contains (pyLower fmt))
        | none => false) then false
    else if f.sizeBytes > MAX_IMAGE_SIZE then false
    else true

/-- Python `int()` on a non-negative float value, modelled over exact
rationals: truncation (= floor for non-negative arguments). -/
def pyInt (q : ℚ) : Nat := (⌊q⌋).toNat

/-- The resize computation of `normalize_image`: if either dimension exceeds
1024, the larger becomes 1024 and the other is `int(other * (1024 / larger))`
(float arithmetic modelled as exact rational arithmetic). -/
def normDims (w h : Nat) : Nat × Nat :=
  if w > 1024 ∨ h > 1024 then
    if w > h then (1024, pyInt ((h : ℚ) * (1024 / (w : ℚ))))
    else (pyInt ((w : ℚ) * (1024 / (h : ℚ))), 1024)
  else (w, h)

/-- `normalize_image`: convert to RGB when needed, downscale when a dimension
exceeds 1024, re-encode in place as quality-85 JPEG.  `encodeRaises` is the
oracle for `img.save` raising, `newSize` the re-encoded byte size.  Returns
(success, file content after the call, save parameters used). -/
def normalize_image (f : StoredFile) (encodeRaises : Bool) (newSize : Nat) :
    Bool × StoredFile × Option SaveParams :=
  match f.image with
  | none => (false, f, none)
  | some img =>
    let img1 := if img.mode ≠ pstr "RGB" then { img with mode := pstr "RGB" } else img
    let wh := normDims img1.width img1.height
    let img2 := { img1 with width := wh.1, height := wh.2 }
    if encodeRaises then (false, f, none)
    else (true,
          { image := some { img2 with format := some (pstr "JPEG") }, sizeBytes := newSize },
          some ⟨pstr "JPEG", 85⟩)

end image_utils

/-! ## Filesystem state -/

inductive FileContent where
  | imageFile (f : StoredFile)
  | textFile (s : PyStr)
deriving DecidableEq

/-- The data directory's contents: an association list path → content. -/
abbrev FS := List (PyStr × FileContent)

/-- Write (create or overwrite) a file. -/
def fsWrite (fs : FS) (p : PyStr) (c : FileContent) : FS :=
  match fs with
  | [] => [(p, c)]
  | (p', c') :: rest => if p' = p then (p', c) :: rest else (p', c') :: fsWrite rest p c

/-- `os.remove`. -/
def fsRemove (fs : FS) (p : PyStr) : FS := fs.filter (fun e => ¬ (e.1 = p))

/-- Whether a path exists. -/
def fsHas (fs : FS) (p : PyStr) : Bool := fs.any (fun e => e.1 = p)

/-- Read a file. -/
def fsGet (fs : FS) (p : PyStr) : Option FileContent :=
  match fs with
  | [] => none
  | (p', c) :: rest => if p' = p then some c else fsGet rest p

/-- `os.path.join(dir, name)` for a relative `name`. -/
def pyJoin (dir name : PyStr) : PyStr := dir ++ '/' :: name

/-! ## `app/services/image_processor.py` -/

namespace ImageProcessor

/-- An uploaded file object together with oracles for the opaque parts:
what the written bytes decode to, their length, and whether reading/saving
the upload stream raises. -/
structure UploadFile where
  filename : PyStr
  bytesDecodeTo : Option PILImage
  byteLen : Nat
  readRaises : Bool

/-- Per-request oracles of the processor: the generated UUID stem, whether
`img.save` inside `normalize_image` raises, and the re-encoded byte size. -/
structure ProcOracle where
  uuid : PyStr
  encodeRaises : Bool
  normSize : Nat

/-- `_process_image`: validate, then normalize; returns the success flag and
the (possibly re-encoded) file content. -/
def _process_image (stored : StoredFile) (orc : ProcOracle) : Bool × StoredFile :=
  if ¬ image_utils.is_valid_image stored then (false, stored)
  else
    let r := image_utils.normalize_image stored orc.encodeRaises orc.normSize
    if r.1 then (true, r.2.1) else (false, stored)

/-- `process_uploaded_image`: save the upload under `<uuid>.jpg` in the data
directory, run `_process_image`, and on failure delete the artifact and
return `("", False)`. -/
def process_uploaded_image (file : UploadFile) (orc : ProcOracle) (fs : FS) :
    (PyStr × Bool) × FS :=
  if file.readRaises then (([], false), fs)
  else
    let image_path := pyJoin DATA_DIR (orc.uuid ++ pstr ".jpg")
    let stored : StoredFile := { image := file.bytesDecodeTo, sizeBytes := file.byteLen }
    let fs1 := fsWrite fs image_path (.imageFile stored)
    let pr := _process_image stored orc
    if pr.1 then ((image_path, true), fsWrite fs1 image_path (.imageFile pr.2))
    else (([], false), fsRemove fs1 image_path)

/-- The download of `process_image_url`: HTTP status, a raise oracle for the
transfer (modelled as raising before the destination file is written), and
what the downloaded bytes decode to. -/
structure UrlFetch where
  status : Nat
  raises : Bool
  bytesDecodeTo : Option PILImage
  byteLen : Nat

/-- `process_image_url`: download, save under `<uuid>.jpg`, run
`_process_image`, delete the artifact on processing failure. -/
def process_image_url (fetch : UrlFetch) (orc : ProcOracle) (fs : FS) :
    (PyStr × Bool) × FS :=
  if fetch.raises then (([], false), fs)
  else if fetch.status ≠ 200 then (([], false), fs)
  else
    let image_path := pyJoin DATA_DIR (orc.uuid ++ pstr ".jpg")
    let stored : StoredFile := { image := fetch.bytesDecodeTo, sizeBytes := fetch.byteLen }
    let fs1 := fsWrite fs image_path (.imageFile stored)
    let pr := _process_image stored orc
    if pr.1 then ((image_path, true), fsWrite fs1 image_path (.imageFile pr.2))
    else (([], false), fsRemove fs1 image_path)

end ImageProcessor

/-! ## `app/models/openai_model.py` -/

namespace OpenAIModel

/-- The fence markers of `_process_response`. -/
def fenceJson : PyStr := pstr "```json"

/-- The bare fence marker. -/
def fence : PyStr := pstr "```"

/-- The fence-stripping step of `_process_response`:
`content.split("```json")[1].split("```")[0].strip()` when a ```json fence is
present, else `content.split("```")[1].strip()` when any ``` fence is
present, else `content.strip()`. -/
def extract_json_str (content : PyStr) : PyStr :=
  if pyIn fenceJson content then
    pyStrip ((pySplit fence ((pySplit fenceJson content).getD 1 [])).getD 0 [])
  else if pyIn fence content then
    pyStrip ((pySplit fence content).getD 1 [])
  else pyStrip content

/-- The degraded result built on `json.JSONDecodeError`. -/
def degradedResult (image_path content : PyStr) : Json :=
  .obj [(pstr "image_path", .str image_path),
        (pstr "error", .str (pstr "Failed to parse model response")),
        (pstr "raw_response", .str content)]

/-- `_process_response`.  The input is `response.choices[0].message.content`
when extracting it succeeds, `none` when that extraction raises (malformed
response object; the outer handler re-raises).  A successful strict JSON
parse of the extracted payload must yield a dict for
`result["image_path"] = image_path` to succeed; a non-dict raises
`TypeError`, which the inner `except json.JSONDecodeError` does not catch,
so it is re-raised as well. -/
def _process_response (content? : Option PyStr) (image_path : PyStr) :
    Except PyStr Json :=
  match content? with
  | none => .error (pstr "list index out of range")
  | some content =>
    let json_str := extract_json_str content
    match pyJsonLoads json_str with
    | some v =>
      match v with
      | .obj o => .ok (.obj (objSet o (pstr "image_path") (.str image_path)))
      | _ => .error (pstr "TypeError: does not support item assignment")
    | none => .ok (degradedResult image_path content)

/-- Outcome of the remote `chat.completions.create` call: a transport-level
exception, or a response whose content extraction may itself fail. -/
inductive ApiOutcome where
  | raises (msg : PyStr)
  | returns (content? : Option PyStr)

/-- The four rounded wall-clock durations `classify_image` attaches; opaque
values, since no claim inspects them numerically. -/
structure ModelTimes where
  total : Json
  api : Json
  encode : Json
  process : Json

/-- `classify_image`: encode the image (the oracle `encodeRaises` models
`open(image_path)` raising), invoke the API, process the response, attach
`processing_time`.  The `except` clause logs and re-raises, so every failure
propagates as `.error`. -/
def classify_image (image_path : PyStr) (encodeRaises : Bool) (api : ApiOutcome)
    (t : ModelTimes) : Except PyStr Json :=
  if encodeRaises then .error (pstr "No such file or directory")
  else
    match api with
    | .raises msg => .error msg
    | .returns content? =>
      match _process_response content? image_path with
      | .error msg => .error msg
      | .ok result =>
        match result with
        | .obj o =>
          .ok (.obj (objSet o (pstr "processing_time")
                (.obj [(pstr "total_seconds", t.total),
                       (pstr "api_seconds", t.api),
                       (pstr "encode_seconds", t.encode),
                       (pstr "process_seconds", t.process)])))
        | other => .ok other

end OpenAIModel

/-! ## Path manipulation (`os.path`) -/

/-- Index of the last occurrence of a character (Python `str.rfind`). -/
def rfindIdx (p : PyStr) (c : Char) : Option Nat :=
  ((List.range p.length).filter (fun i => p.getD i ' ' = c)).getLast?

/-- `os.path.basename`: everything after the last `/`. -/
def pyBasename (p : PyStr) : PyStr :=
  match rfindIdx p '/' with
  | none => p
  | some i => p.drop (i + 1)

/-- `os.path.splitext` (CPython `genericpath._splitext` for POSIX paths):
split at the last dot, provided it lies after the last separator and some
non-dot character precedes it within the basename. -/
def pySplitext (p : PyStr) : PyStr × PyStr :=
  let sepIndex : Int := match rfindIdx p '/' with | some i => (i : Int) | none => -1
  let dotIndex : Int := match rfindIdx p '.' with | some i => (i : Int) | none => -1
  if sepIndex < dotIndex then
    let filenameIndex := (sepIndex + 1).toNat
    if ((List.range' filenameIndex (dotIndex.toNat - filenameIndex)).any
          (fun k => ¬ (p.getD k ' ' = '.'))) then
      (p.take dotIndex.toNat, p.drop dotIndex.toNat)
    else (p, [])
  else (p, [])

/-! ## `json.dumps(result, indent=2)` -/

/-- One lowercase hexadecimal digit. -/
def hexDigit (n : Nat) : Char :=
  if n < 10 then Char.ofNat (48 + n) else Char.ofNat (97 + (n - 10))

/-- Four lowercase hexadecimal digits. -/
def hex4 (n : Nat) : PyStr :=
  [hexDigit (n / 4096 % 16), hexDigit (n / 256 % 16), hexDigit (n / 16 % 16), hexDigit (n % 16)]

/-- `json.dumps` escaping of one character (`ensure_ascii=True`): named
escapes, `\u00xx` for other control characters, `\uxxxx` for non-ASCII
(surrogate pairs beyond the BMP). -/
def dumpEscChar (c : Char) : PyStr :=
  if c = '"' then pstr "\\\""
  else if c = '\\' then pstr "\\\\"
  else if c = '\n' then pstr "\\n"
  else if c = '\r' then pstr "\\r"
  else if c = '\t' then pstr "\\t"
  else if c = '\x08' then pstr "\\b"
  else if c = '\x0c' then pstr "\\f"
  else if c.toNat < 32 then '\\' :: 'u' :: hex4 c.toNat
  else if c.toNat < 127 then [c]
  else if c.toNat < 65536 then '\\' :: 'u' :: hex4 c.toNat
  else
    '\\' :: 'u' :: hex4 (55296 + (c.toNat - 65536) / 1024) ++
    '\\' :: 'u' :: hex4 (56320 + (c.toNat - 65536) % 1024)

/-- Serialize a JSON string token. -/
def dumpStr (s : PyStr) : PyStr := '"' :: (s.flatMap dumpEscChar) ++ ['"']

/-- Indentation of `indent=2` at a nesting level. -/
def ind2 (level : Nat) : PyStr := List.replicate (2 * level) ' '

mutual

/-- Fuelled worker serializing one value at a nesting level, mirroring
`json.dumps(x, indent=2)` (number lexemes are emitted verbatim).  Fuel bounds
the nesting depth; every value arising in this development is far shallower
than the fuel used at top level. -/
def dumpV : Nat → Json → Nat → PyStr
  | 0, _, _ => []
  | _ + 1, .null, _ => pstr "null"
  | _ + 1, .bool b, _ => if b then pstr "true" else pstr "false"
  | _ + 1, .num lex, _ => lex
  | _ + 1, .str s, _ => dumpStr s
  | f + 1, .arr xs, level =>
    match xs with
    | [] => pstr "[]"
    | _ =>
      '[' :: '\n' :: dumpItems f xs (level + 1) ++
      '\n' :: ind2 level ++ [']']
  | f + 1, .obj fields, level =>
    match fields with
    | [] => pstr "{}"
    | _ =>
      '{' :: '\n' :: dumpFields f fields (level + 1) ++
      '\n' :: ind2 level ++ ['}']

/-- Serialize array items, one per line. -/
def dumpItems : Nat → List Json → Nat → PyStr
  | 0, _, _ => []
  | _ + 1, [], _ => []
  | f + 1, [x], level => ind2 level ++ dumpV f x level
  | f + 1, x :: y :: rest, level =>
    ind2 level ++ dumpV f x level ++ ',' :: '\n' :: dumpItems f (y :: rest) level

/-- Serialize object members, one per line. -/
def dumpFields : Nat → JsonObj → Nat → PyStr
  | 0, _, _ => []
  | _ + 1, [], _ => []
  | f + 1, [(k, v)], level => ind2 level ++ dumpStr k ++ ':' :: ' ' :: dumpV f v level
  | f + 1, (k, v) :: kv :: rest, level =>
    ind2 level ++ dumpStr k ++ ':' :: ' ' :: dumpV f v level ++
    ',' :: '\n' :: dumpFields f (kv :: rest) level

end

/-- `json.dumps(result, indent=2)`. -/
def pyJsonDumpsIndent2 (j : Json) : PyStr := dumpV 4096 j 0

/-! ## `app/services/classification.py` -/

namespace ClassificationService

/-- `_save_results_to_file`: derive
`DATA_DIR/<basename without extension>_results.json`, write the result as
indented JSON, and return `(path, True)`; any I/O exception (`ioRaises`
oracle) is caught and reported as `("", False)` without touching the
result. -/
def _save_results_to_file (result : Json) (image_path : PyStr) (ioRaises : Bool)
    (fs : FS) : (PyStr × Bool) × FS :=
  let image_filename := pyBasename image_path
  let image_name := (pySplitext image_filename).1
  let results_filename := image_name ++ pstr "_results.json"
  let results_path := pyJoin DATA_DIR results_filename
  if ioRaises then (([], false), fs)
  else ((results_path, true), fsWrite fs results_path (.textFile (pyJsonDumpsIndent2 result)))

/-- The three rounded service-level durations merged into
`result["processing_time"]`; opaque values. -/
structure SvcTimes where
  serviceTotal : Json
  imageProcessing : Json
  saveResults : Json

/-- The timing merge of the service:
`if "processing_time" not in result: result["processing_time"] = {}` followed
by `result["processing_time"].update({...})`.  Raises (`.error`) when the
result is not a dict (`in` on a non-dict) or its `processing_time` member is
not a dict (`.update` missing). -/
def add_service_timing (result : Json) (t : SvcTimes) : Except PyStr Json :=
  match result with
  | .obj o =>
    match objGet o (pstr "processing_time") with
    | none =>
      .ok (.obj (objSet o (pstr "processing_time")
            (.obj [(pstr "service_total_seconds", t.serviceTotal),
                   (pstr "image_processing_seconds", t.imageProcessing),
                   (pstr "save_results_seconds", t.saveResults)])))
    | some (.obj pt) =>
      .ok (.obj (objSet o (pstr "processing_time")
            (.obj (objSet (objSet (objSet pt
                     (pstr "service_total_seconds") t.serviceTotal)
                     (pstr "image_processing_seconds") t.imageProcessing)
                     (pstr "save_results_seconds") t.saveResults))))
    | some _ => .error (pstr "object has no attribute update")
  | _ => .error (pstr "argument of type is not iterable")

/-- The single-field error record the service returns on failure. -/
def errObj (msg : PyStr) : Json := .obj [(pstr "error", .str msg)]

/-- `classify_uploaded_image`.  The image processor and the model client are
passed as behaviours: `proc` runs on the current filesystem and either
returns `((image_path, success), fs)` or raises (carrying the filesystem as
mutated so far), and `classifier` is `self.model.classify_image`.  The
outermost `except Exception` converts any raise into
`{"error": "Error classifying uploaded image: " + str(e)}`. -/
def classify_uploaded_image (filename : PyStr)
    (proc : FS → Except (PyStr × FS) ((PyStr × Bool) × FS))
    (classifier : PyStr → Except PyStr Json)
    (ioRaises : Bool) (t : SvcTimes) (fs : FS) : Json × FS :=
  match proc fs with
  | .error (msg, fs1) => (errObj (pstr "Error classifying uploaded image: " ++ msg), fs1)
  | .ok ((image_path, success), fs1) =>
    if ¬ success then
      (errObj (pstr "Failed to process the uploaded image: " ++ filename), fs1)
    else
      match classifier image_path with
      | .error msg => (errObj (pstr "Error classifying uploaded image: " ++ msg), fs1)
      | .ok result =>
        let saved := _save_results_to_file result image_path ioRaises fs1
        match add_service_timing result t with
        | .ok result2 => (result2, saved.2)
        | .error msg => (errObj (pstr "Error classifying uploaded image: " ++ msg), saved.2)

/-- `classify_image_url`; identical shape with the URL-specific messages. -/
def classify_image_url (url : PyStr)
    (proc : FS → Except (PyStr × FS) ((PyStr × Bool) × FS))
    (classifier : PyStr → Except PyStr Json)
    (ioRaises : Bool) (t : SvcTimes) (fs : FS) : Json × FS :=
  match proc fs with
  | .error (msg, fs1) => (errObj (pstr "Error classifying image URL: " ++ msg), fs1)
  | .ok ((image_path, success), fs1) =>
    if ¬ success then
      (errObj (pstr "Failed to process the image URL: " ++ url), fs1)
    else
      match classifier image_path with
      | .error msg => (errObj (pstr "Error classifying image URL: " ++ msg), fs1)
      | .ok result =>
        let saved := _save_results_to_file result image_path ioRaises fs1
        match add_service_timing result t with
        | .ok result2 => (result2, saved.2)
        | .error msg => (errObj (pstr "Error classifying image URL: " ++ msg), saved.2)

end ClassificationService

/-! ## `app/utils/api_utils.py` and `app/api/endpoints/classification.py` -/

namespace api_utils

/-- `validate_image_format`: membership of the declared content type in the
literal list (no case folding in the source). -/
def validate_image_format (content_type : PyStr) : Bool :=
  [pstr "image/jpeg", pstr "image/jpg", pstr "image/png", pstr "image/webp"].contains
    content_type

/-- `format_error_response`. -/
def format_error_response (message : Json) (code : Nat) : Json :=
  .obj [(pstr "success", .bool false),
        (pstr "error", .obj [(pstr "message", message),
                             (pstr "code", .num (pstr (toString code)))])]

/-- `format_success_response`. -/
def format_success_response (data : Json) : Json :=
  .obj [(pstr "success", .bool true), (pstr "data", data)]

end api_utils

namespace endpoints

/-- An HTTP response of the endpoint plus a marker recording whether the
classification pipeline (the service call) was reached. -/
structure EndpointResult where
  status : Nat
  body : Json
  pipelineInvoked : Bool

/-- The `/classify` endpoint around the service: reject unsupported declared
content types with 400 before invoking the pipeline; convert any service
result carrying an `error` key into a 500 error envelope; wrap everything
else in a success envelope.  `svcResult` is the dict returned by
`classification_service.classify_uploaded_image`. -/
def classify_image (content_type : PyStr) (svcResult : JsonObj) : EndpointResult :=
  if ¬ api_utils.validate_image_format content_type then
    { status := 400,
      body := api_utils.format_error_response
        (.str (pstr "Unsupported file format: " ++ content_type)) 400,
      pipelineInvoked := false }
  else
    match objGet svcResult (pstr "error") with
    | some e =>
      { status := 500, body := api_utils.format_error_response e 500, pipelineInvoked := true }
    | none =>
      { status := 200, body := api_utils.format_success_response (.obj svcResult),
        pipelineInvoked := true }

end endpoints

/-- The backtick character. -/
def tick : Char := Char.ofNat 96

/-! ## Helper lemmas: substring search, split, strip -/

theorem findSub_of_isPrefixOf {sep s : PyStr} (h : sep.isPrefixOf s = true) :
    findSub sep s = some 0 := by
  cases s <;> simp [findSub, h]

theorem findSub_some_bound {sep : PyStr} :
    ∀ {s : PyStr} {i : Nat}, findSub sep s = some i → i + sep.length ≤ s.length := by
  intro s
  induction s with
  | nil =>
    intro i h
    simp only [findSub] at h
    split at h
    · rename_i hp
      have hl := (List.isPrefixOf_iff_prefix.mp hp).length_le
      have hi : i = 0 := (Option.some.inj h).symm
      subst hi
      simpa using hl
    · exact absurd h (by simp)
  | cons c rest ih =>
    intro i h
    simp only [findSub] at h
    split at h
    · rename_i hp
      have hl := (List.isPrefixOf_iff_prefix.mp hp).length_le
      have hi : i = 0 := (Option.some.inj h).symm
      subst hi
      simpa using hl
    · rcases Option.map_eq_some'.mp h with ⟨j, hj, rfl⟩
      have := ih hj
      simp only [List.length_cons]
      omega

theorem findSub_none_cons {sep : PyStr} {c : Char} {s : PyStr}
    (h : findSub sep (c :: s) = none) :
    sep.isPrefixOf (c :: s) = false ∧ findSub sep s = none := by
  simp only [findSub] at h
  split at h
  · exact absurd h (by simp)
  · rename_i hp
    refine ⟨by simp only [Bool.not_eq_true] at hp; exact hp, ?_⟩
    cases hf : findSub sep s
    · rfl
    · rw [hf] at h
      exact absurd h (by simp)
theorem fence_eq : OpenAIModel.fence = [tick, tick, tick] := rfl

theorem fenceJson_eq : OpenAIModel.fenceJson = [tick, tick, tick, 'j', 's', 'o', 'n'] := rfl

theorem fence_isPrefixOf_elim {c : Char} {s' t : PyStr}
    (hp1 : OpenAIModel.fence.isPrefixOf (c :: s') = false) :
    OpenAIModel.fence.isPrefixOf (c :: (s' ++ '\n' :: t)) = false := by
  match s' with
  | [] =>
    simp only [fence_eq, List.isPrefixOf, List.nil_append, Bool.and_eq_false_iff]
    right
    left
    decide
  | [d] =>
    simp only [fence_eq, List.isPrefixOf, List.cons_append, List.nil_append,
      Bool.and_eq_false_iff]
    right
    right
    left
    decide
  | d :: e :: s'' =>
    simp only [fence_eq, List.isPrefixOf, List.cons_append, Bool.and_eq_false_iff] at hp1 ⊢
    rcases hp1 with h | h | h | h
    · exact Or.inl h
    · exact Or.inr (Or.inl h)
    · exact Or.inr (Or.inr (Or.inl h))
    · simp at h
theorem fence_not_isPrefixOf_newline (t : PyStr) :
    OpenAIModel.fence.isPrefixOf ('\n' :: t) = false := by
  simp only [fence_eq, List.isPrefixOf, Bool.and_eq_false_iff]
  left
  decide

theorem findSub_fence_barrier {sep : PyStr} (hpre : OpenAIModel.fence <+: sep) :
    ∀ (s t : PyStr), findSub OpenAIModel.fence s = none →
      findSub sep (s ++ '\n' :: t) = (findSub sep t).map (· + (s.length + 1)) := by
  intro s
  induction s with
  | nil =>
    intro t _
    have hp : sep.isPrefixOf ('\n' :: t) = false := by
      by_contra hx
      have hx' : sep.isPrefixOf ('\n' :: t) = true := by
        revert hx
        cases sep.isPrefixOf ('\n' :: t) <;> simp
      have h3 : OpenAIModel.fence.isPrefixOf ('\n' :: t) = true :=
        List.isPrefixOf_iff_prefix.mpr
          (hpre.trans (List.isPrefixOf_iff_prefix.mp hx'))
      rw [fence_not_isPrefixOf_newline] at h3
      exact Bool.false_ne_true h3
    simp [findSub, hp]
  | cons c s' ih =>
    intro t h
    obtain ⟨hp1, h2⟩ := findSub_none_cons h
    have hp : sep.isPrefixOf (c :: (s' ++ '\n' :: t)) = false := by
      by_contra hx
      have hx' : sep.isPrefixOf (c :: (s' ++ '\n' :: t)) = true := by
        revert hx
        cases sep.isPrefixOf (c :: (s' ++ '\n' :: t)) <;> simp
      have h3 : OpenAIModel.fence.isPrefixOf (c :: (s' ++ '\n' :: t)) = true :=
        List.isPrefixOf_iff_prefix.mpr
          (hpre.trans (List.isPrefixOf_iff_prefix.mp hx'))
      rw [fence_isPrefixOf_elim hp1] at h3
      exact Bool.false_ne_true h3
    have hcons : (c :: s') ++ '\n' :: t = c :: (s' ++ '\n' :: t) := rfl
    rw [hcons]
    simp only [findSub, hp, Bool.false_eq_true, if_false, ih t h2, Option.map_map]
    cases findSub sep t with
    | none => simp
    | some j =>
      simp only [Option.map_some', Function.comp, List.length_cons, Option.some.injEq]
      omega
theorem pySplitF_eq_pySplit {sep : PyStr} (hsep : sep ≠ []) :
    ∀ (f : Nat) (s : PyStr), s.length < f → pySplitF f sep s = pySplit sep s := by
  intro f
  induction f using Nat.strong_induction_on with
  | _ f ih =>
    intro s hs
    match f, hs with
    | f' + 1, hs =>
      cases hfind : findSub sep s with
      | none => simp [pySplitF, pySplit, hfind]
      | some i =>
        have hb := findSub_some_bound hfind
        have hsl : 1 ≤ sep.length := List.length_pos.mpr hsep
        have hdrop : (s.drop (i + sep.length)).length < s.length := by
          simp only [List.length_drop]
          omega
        have e1 : pySplitF (f' + 1) sep s =
            s.take i :: pySplitF f' sep (s.drop (i + sep.length)) := by
          simp [pySplitF, hfind]
        have e2 : pySplit sep s =
            s.take i :: pySplitF s.length sep (s.drop (i + sep.length)) := by
          simp [pySplit, pySplitF, hfind]
        rw [e1, e2]
        rw [ih f' (Nat.lt_succ_self f') _ (by omega),
            ih s.length hs _ hdrop]

theorem pySplit_of_none {sep s : PyStr} (h : findSub sep s = none) :
    pySplit sep s = [s] := by
  simp [pySplit, pySplitF, h]

theorem pySplit_of_some {sep s : PyStr} {i : Nat} (hsep : sep ≠ [])
    (h : findSub sep s = some i) :
    pySplit sep s = s.take i :: pySplit sep (s.drop (i + sep.length)) := by
  have hb := findSub_some_bound h
  have hsl : 1 ≤ sep.length := List.length_pos.mpr hsep
  have e2 : pySplit sep s =
      s.take i :: pySplitF s.length sep (s.drop (i + sep.length)) := by
    simp [pySplit, pySplitF, h]
  rw [e2, pySplitF_eq_pySplit hsep s.length _ (by simp only [List.length_drop]; omega)]

theorem findSub_sub_of_prefix {sep sep' : PyStr} (hp : sep' <+: sep) :
    ∀ {s : PyStr}, findSub sep' s = none → findSub sep s = none := by
  intro s
  induction s with
  | nil =>
    intro h
    simp only [findSub] at h ⊢
    split at h
    · exact absurd h (by simp)
    · rename_i hb
      split
      · rename_i hb2
        have : sep' <+: ([] : PyStr) :=
          hp.trans (List.isPrefixOf_iff_prefix.mp hb2)
        rw [List.prefix_nil] at this
        subst this
        simp [List.isPrefixOf] at hb
      · rfl
  | cons c rest ih =>
    intro h
    obtain ⟨h1, h2⟩ := findSub_none_cons h
    have hb : sep.isPrefixOf (c :: rest) = false := by
      by_contra hx
      have hx' : sep.isPrefixOf (c :: rest) = true := by
        revert hx
        cases sep.isPrefixOf (c :: rest) <;> simp
      have : sep'.isPrefixOf (c :: rest) = true :=
        List.isPrefixOf_iff_prefix.mpr (hp.trans (List.isPrefixOf_iff_prefix.mp hx'))
      rw [h1] at this
      exact Bool.false_ne_true this
    simp [findSub, hb, ih h2]

theorem pyLStrip_cons_of_space {c : Char} {s : PyStr} (h : isPySpace c = true) :
    pyLStrip (c :: s) = pyLStrip s := by
  simp [pyLStrip, List.dropWhile_cons, h]

theorem pyRStrip_append_space {c : Char} {s : PyStr} (h : isPySpace c = true) :
    pyRStrip (s ++ [c]) = pyRStrip s := by
  simp [pyRStrip, List.dropWhile_cons, h]

theorem pyStrip_wrap (s : PyStr) : pyStrip ('\n' :: (s ++ ['\n'])) = pyStrip s := by
  unfold pyStrip
  rw [pyLStrip_cons_of_space (by decide)]
  rcases he : pyLStrip s with hnil | ⟨d, ds⟩
  · have : pyLStrip (s ++ ['\n']) = pyLStrip ['\n'] := by
      simp only [pyLStrip] at he ⊢
      rw [List.dropWhile_append, he]
      simp
    rw [this]
    decide
  · have : pyLStrip (s ++ ['\n']) = pyLStrip s ++ ['\n'] := by
      simp only [pyLStrip] at he ⊢
      rw [List.dropWhile_append, he]
      simp
    rw [this, pyRStrip_append_space (by decide), he]
theorem fence_prefix_fenceJson : OpenAIModel.fence <+: OpenAIModel.fenceJson :=
  ⟨pstr "json", by decide⟩

theorem findSub_fence_tail (s : PyStr) (h : findSub OpenAIModel.fence s = none) :
    findSub OpenAIModel.fence ('\n' :: (s ++ '\n' :: OpenAIModel.fence)) =
      some (s.length + 2) := by
  have h1 := findSub_fence_barrier (List.prefix_refl OpenAIModel.fence)
    [] (s ++ '\n' :: OpenAIModel.fence) (by decide)
  have h2 := findSub_fence_barrier (List.prefix_refl OpenAIModel.fence) s
    OpenAIModel.fence h
  have h3 : findSub OpenAIModel.fence OpenAIModel.fence = some 0 :=
    findSub_of_isPrefixOf (List.isPrefixOf_iff_prefix.mpr (List.prefix_refl _))
  simp only [List.nil_append, List.length_nil] at h1
  rw [h1, h2, h3]
  simp

theorem findSub_fenceJson_tail (s : PyStr) (h : findSub OpenAIModel.fence s = none) :
    findSub OpenAIModel.fenceJson ('\n' :: (s ++ '\n' :: OpenAIModel.fence)) = none := by
  have h1 := findSub_fence_barrier fence_prefix_fenceJson
    [] (s ++ '\n' :: OpenAIModel.fence) (by decide)
  have h2 := findSub_fence_barrier fence_prefix_fenceJson s OpenAIModel.fence h
  have h3 : findSub OpenAIModel.fenceJson OpenAIModel.fence = none := by decide
  simp only [List.nil_append, List.length_nil] at h1
  rw [h1, h2, h3]
  simp

theorem extract_wrapJson (s : PyStr) (h : findSub OpenAIModel.fence s = none) :
    OpenAIModel.extract_json_str
      (OpenAIModel.fenceJson ++ '\n' :: (s ++ '\n' :: OpenAIModel.fence)) = pyStrip s := by
  have hguard : findSub OpenAIModel.fenceJson
      (OpenAIModel.fenceJson ++ '\n' :: (s ++ '\n' :: OpenAIModel.fence)) = some 0 :=
    findSub_of_isPrefixOf (List.isPrefixOf_iff_prefix.mpr (List.prefix_append _ _))
  have hsplit7 : pySplit OpenAIModel.fenceJson
      (OpenAIModel.fenceJson ++ '\n' :: (s ++ '\n' :: OpenAIModel.fence)) =
      [[], '\n' :: (s ++ '\n' :: OpenAIModel.fence)] := by
    rw [pySplit_of_some (by decide) hguard]
    rw [show (0 + OpenAIModel.fenceJson.length) = OpenAIModel.fenceJson.length by omega]
    rw [List.take_zero, List.drop_left, pySplit_of_none (findSub_fenceJson_tail s h)]
  have hA : ('\n' :: (s ++ '\n' :: OpenAIModel.fence)) =
      ('\n' :: (s ++ ['\n'])) ++ OpenAIModel.fence := by
    simp
  have hlenA : ('\n' :: (s ++ ['\n'])).length = s.length + 2 := by
    simp
  have hsplit3 : pySplit OpenAIModel.fence ('\n' :: (s ++ '\n' :: OpenAIModel.fence)) =
      ['\n' :: (s ++ ['\n']), []] := by
    rw [pySplit_of_some (by decide) (findSub_fence_tail s h)]
    rw [hA]
    rw [show s.length + 2 = ('\n' :: (s ++ ['\n'])).length from hlenA.symm]
    rw [List.take_left]
    rw [show ('\n' :: (s ++ ['\n'])).length + OpenAIModel.fence.length =
        (('\n' :: (s ++ ['\n'])) ++ OpenAIModel.fence).length by simp; omega]
    rw [List.drop_length, pySplit_of_none (by decide)]
  unfold OpenAIModel.extract_json_str
  rw [if_pos (by simp [pyIn, hguard])]
  rw [hsplit7]
  simp only [List.getD_cons_succ, List.getD_cons_zero]
  rw [hsplit3]
  simp only [List.getD_cons_zero]
  exact pyStrip_wrap s

theorem findSub_fenceJson_bare (s : PyStr) (h : findSub OpenAIModel.fence s = none) :
    findSub OpenAIModel.fenceJson
      (OpenAIModel.fence ++ '\n' :: (s ++ '\n' :: OpenAIModel.fence)) = none := by
  have htail := findSub_fenceJson_tail s h
  have hA : OpenAIModel.fenceJson.isPrefixOf
      (tick :: tick :: tick :: '\n' :: (s ++ '\n' :: OpenAIModel.fence)) = false := by
    simp only [fenceJson_eq, List.isPrefixOf, Bool.and_eq_false_iff]
    right; right; right; left; decide
  have hB : OpenAIModel.fenceJson.isPrefixOf
      (tick :: tick :: '\n' :: (s ++ '\n' :: OpenAIModel.fence)) = false := by
    simp only [fenceJson_eq, List.isPrefixOf, Bool.and_eq_false_iff]
    right; right; left; decide
  have hC : OpenAIModel.fenceJson.isPrefixOf
      (tick :: '\n' :: (s ++ '\n' :: OpenAIModel.fence)) = false := by
    simp only [fenceJson_eq, List.isPrefixOf, Bool.and_eq_false_iff]
    right; left; decide
  show findSub OpenAIModel.fenceJson
      (tick :: tick :: tick :: '\n' :: (s ++ '\n' :: OpenAIModel.fence)) = none
  rw [show findSub OpenAIModel.fenceJson
      (tick :: tick :: tick :: '\n' :: (s ++ '\n' :: OpenAIModel.fence)) =
      if OpenAIModel.fenceJson.isPrefixOf
          (tick :: tick :: tick :: '\n' :: (s ++ '\n' :: OpenAIModel.fence)) then some 0
      else (findSub OpenAIModel.fenceJson
          (tick :: tick :: '\n' :: (s ++ '\n' :: OpenAIModel.fence))).map (· + 1) from rfl]
  rw [hA]
  simp only [Bool.false_eq_true, if_false]
  rw [show findSub OpenAIModel.fenceJson
      (tick :: tick :: '\n' :: (s ++ '\n' :: OpenAIModel.fence)) =
      if OpenAIModel.fenceJson.isPrefixOf
          (tick :: tick :: '\n' :: (s ++ '\n' :: OpenAIModel.fence)) then some 0
      else (findSub OpenAIModel.fenceJson
          (tick :: '\n' :: (s ++ '\n' :: OpenAIModel.fence))).map (· + 1) from rfl]
  rw [hB]
  simp only [Bool.false_eq_true, if_false]
  rw [show findSub OpenAIModel.fenceJson
      (tick :: '\n' :: (s ++ '\n' :: OpenAIModel.fence)) =
      if OpenAIModel.fenceJson.isPrefixOf
          (tick :: '\n' :: (s ++ '\n' :: OpenAIModel.fence)) then some 0
      else (findSub OpenAIModel.fenceJson
          ('\n' :: (s ++ '\n' :: OpenAIModel.fence))).map (· + 1) from rfl]
  rw [hC]
  simp only [Bool.false_eq_true, if_false]
  rw [htail]
  rfl

theorem extract_wrapBare (s : PyStr) (h : findSub OpenAIModel.fence s = none) :
    OpenAIModel.extract_json_str
      (OpenAIModel.fence ++ '\n' :: (s ++ '\n' :: OpenAIModel.fence)) = pyStrip s := by
  have hguard : findSub OpenAIModel.fence
      (OpenAIModel.fence ++ '\n' :: (s ++ '\n' :: OpenAIModel.fence)) = some 0 :=
    findSub_of_isPrefixOf (List.isPrefixOf_iff_prefix.mpr (List.prefix_append _ _))
  have hA : ('\n' :: (s ++ '\n' :: OpenAIModel.fence)) =
      ('\n' :: (s ++ ['\n'])) ++ OpenAIModel.fence := by
    simp
  have hsplit3tail : pySplit OpenAIModel.fence ('\n' :: (s ++ '\n' :: OpenAIModel.fence)) =
      ['\n' :: (s ++ ['\n']), []] := by
    rw [pySplit_of_some (by decide) (findSub_fence_tail s h)]
    rw [hA]
    rw [show s.length + 2 = ('\n' :: (s ++ ['\n'])).length by simp]
    rw [List.take_left]
    rw [show ('\n' :: (s ++ ['\n'])).length + OpenAIModel.fence.length =
        (('\n' :: (s ++ ['\n'])) ++ OpenAIModel.fence).length by simp; omega]
    rw [List.drop_length, pySplit_of_none (by decide)]
  have hsplit3 : pySplit OpenAIModel.fence
      (OpenAIModel.fence ++ '\n' :: (s ++ '\n' :: OpenAIModel.fence)) =
      [[], '\n' :: (s ++ ['\n']), []] := by
    rw [pySplit_of_some (by decide) hguard]
    rw [show (0 + OpenAIModel.fence.length) = OpenAIModel.fence.length by omega]
    rw [List.take_zero, List.drop_left, hsplit3tail]
  unfold OpenAIModel.extract_json_str
  rw [if_neg (by simp [pyIn, findSub_fenceJson_bare s h])]
  rw [if_pos (by simp [pyIn, hguard])]
  rw [hsplit3]
  simp only [List.getD_cons_succ, List.getD_cons_zero]
  exact pyStrip_wrap s

theorem extract_unwrapped (s : PyStr) (h : findSub OpenAIModel.fence s = none) :
    OpenAIModel.extract_json_str s = pyStrip s := by
  unfold OpenAIModel.extract_json_str
  rw [if_neg (by simp [pyIn, findSub_sub_of_prefix fence_prefix_fenceJson h])]
  rw [if_neg (by simp [pyIn, h])]

/-! ## Helper lemmas: filesystem -/

theorem fsRemove_write (fs : FS) (p : PyStr) (c : FileContent) :
    fsRemove (fsWrite fs p c) p = fsRemove fs p := by
  induction fs with
  | nil => simp [fsWrite, fsRemove]
  | cons e rest ih =>
    obtain ⟨a, b⟩ := e
    by_cases h : a = p
    · subst h
      simp [fsWrite, fsRemove, List.filter_cons]
    · simp [fsWrite, fsRemove, List.filter_cons, h] at ih ⊢
      exact ih

theorem fsHas_remove (fs : FS) (p : PyStr) : fsHas (fsRemove fs p) p = false := by
  induction fs with
  | nil => simp [fsRemove, fsHas]
  | cons e rest ih =>
    obtain ⟨a, b⟩ := e
    by_cases h : a = p
    · subst h
      simp [fsRemove, fsHas, List.filter_cons, ih]
    · simp [fsRemove, fsHas, List.filter_cons, h, ih]

theorem fsHas_remove_ne (fs : FS) {p q : PyStr} (h : q ≠ p) :
    fsHas (fsRemove fs p) q = fsHas fs q := by
  induction fs with
  | nil => simp [fsRemove, fsHas]
  | cons e rest ih =>
    obtain ⟨a, b⟩ := e
    by_cases ha : a = p
    · subst ha
      have haq : ¬ (a = q) := fun hx => h hx.symm
      simp [fsRemove, fsHas, List.filter_cons, haq] at ih ⊢
      exact ih
    · by_cases haq : a = q
      · simp [fsRemove, fsHas, List.filter_cons, ha, haq, h]
      · simp [fsRemove, fsHas, List.filter_cons, ha, haq] at ih ⊢
        exact ih

theorem fsHas_write_self (fs : FS) (p : PyStr) (c : FileContent) :
    fsHas (fsWrite fs p c) p = true := by
  induction fs with
  | nil => simp [fsWrite, fsHas]
  | cons e rest ih =>
    obtain ⟨a, b⟩ := e
    by_cases h : a = p
    · subst h
      simp [fsWrite, fsHas]
    · simpa [fsWrite, fsHas, h] using ih

theorem fsHas_write_ne (fs : FS) {p q : PyStr} (c : FileContent) (h : q ≠ p) :
    fsHas (fsWrite fs p c) q = fsHas fs q := by
  induction fs with
  | nil =>
    simp [fsWrite, fsHas]
    exact fun hx => h hx.symm
  | cons e rest ih =>
    obtain ⟨a, b⟩ := e
    by_cases ha : a = p
    · subst ha
      have haq : ¬ (a = q) := fun hx => h hx.symm
      simp [fsWrite, fsHas, haq]
    · by_cases haq : a = q
      · simp [fsWrite, fsHas, ha, haq, h]
      · simp [fsWrite, fsHas, ha, haq] at ih ⊢
        exact ih

/-! ## Claim C4 -/

/-- Claim C4: `is_valid_image` returns true for every stored image whose
detected format (lowercased) lies in the supported set
`{jpg, jpeg, png, webp}` and whose byte size is at most the configured
maximum of 10 MiB; it returns false, without raising, when the byte size
exceeds the maximum (regardless of format), when the detected format is
outside the supported set, and when decoding the bytes raises. -/
theorem C4_is_valid_image_spec :
    MAX_IMAGE_SIZE = 10 * 1024 * 1024 ∧
    (∀ (f : StoredFile) (img : PILImage) (fmt : PyStr),
      f.image = some img → img.format = some fmt →
      pyLower fmt ∈ SUPPORTED_FORMATS →
      (image_utils.is_valid_image f = true ↔ f.sizeBytes ≤ MAX_IMAGE_SIZE)) ∧
    (∀ f : StoredFile, MAX_IMAGE_SIZE < f.sizeBytes →
      image_utils.is_valid_image f = false) ∧
    (∀ (f : StoredFile) (img : PILImage) (fmt : PyStr),
      f.image = some img → img.format = some fmt →
      pyLower fmt ∉ SUPPORTED_FORMATS →
      image_utils.is_valid_image f = false) ∧
    (∀ f : StoredFile, f.image = none → image_utils.is_valid_image f = false) := by
  refine ⟨rfl, ?_, ?_, ?_, ?_⟩
  · intro f img fmt hi hf hc
    simp [image_utils.is_valid_image, hi, hf, hc]
  · intro f h
    cases hf : f.image with
    | none => simp [image_utils.is_valid_image, hf]
    | some img =>
      cases hfmt : img.format with
      | none => simp [image_utils.is_valid_image, hf, hfmt, h]
      | some fmt =>
        by_cases hb : pyLower fmt ∈ SUPPORTED_FORMATS
        · simp [image_utils.is_valid_image, hf, hfmt, hb, h]
        · simp [image_utils.is_valid_image, hf, hfmt, hb, h]
  · intro f img fmt hi hf hc
    simp [image_utils.is_valid_image, hi, hf, hc]
  · intro f h
    simp [image_utils.is_valid_image, h]

/-- Claim C4, witness: a 100-byte supported-format image validates; the same
image at 10 MiB + 1 byte does not. -/
theorem C4_witness :
    image_utils.is_valid_image ⟨some ⟨some (pstr "JPEG"), pstr "RGB", 10, 10⟩, 100⟩ = true ∧
    image_utils.is_valid_image
      ⟨some ⟨some (pstr "JPEG"), pstr "RGB", 10, 10⟩, 10 * 1024 * 1024 + 1⟩ = false := by
  constructor
  · exact (C4_is_valid_image_spec.2.1 _ _ _ rfl rfl (by decide)).mpr (by decide)
  · exact C4_is_valid_image_spec.2.2.1 _ (by decide)

/-! ## Claim C9 -/

/-- Claim C9 (amended): `validate_image_format` accepts exactly the four MIME
strings `image/jpeg`, `image/jpg`, `image/png`, `image/webp` by literal,
case-sensitive comparison (the source performs no case folding), and the
`/classify` endpoint rejects every other declared content type with a 400
error envelope before the pipeline is invoked. -/
theorem C9_validate_image_format_spec :
    (∀ s : PyStr, api_utils.validate_image_format s = true ↔
      (s = pstr "image/jpeg" ∨ s = pstr "image/jpg" ∨
       s = pstr "image/png" ∨ s = pstr "image/webp")) ∧
    (∀ (s : PyStr) (svc : JsonObj), api_utils.validate_image_format s = false →
      endpoints.classify_image s svc =
        ⟨400, api_utils.format_error_response
            (.str (pstr "Unsupported file format: " ++ s)) 400, false⟩) := by
  constructor
  · intro s
    simp [api_utils.validate_image_format, List.contains]
  · intro s svc h
    simp [endpoints.classify_image, h]

/-- Claim C9, counterexample: `IMAGE/JPEG` lowercases into the accepted set,
yet `validate_image_format` rejects it — the comparison is case-sensitive,
not case-insensitive as claimed. -/
theorem C9_counterexample :
    api_utils.validate_image_format (pstr "IMAGE/JPEG") = false ∧
    pyLower (pstr "IMAGE/JPEG") = pstr "image/jpeg" ∧
    api_utils.validate_image_format (pyLower (pstr "IMAGE/JPEG")) = true :=
  ⟨by decide, by decide, by decide⟩

/-- Claim C9, witness: `image/png` is accepted; `text/plain` is rejected with
a 400 error envelope and without invoking the pipeline. -/
theorem C9_witness :
    api_utils.validate_image_format (pstr "image/png") = true ∧
    endpoints.classify_image (pstr "text/plain") [] =
      ⟨400, api_utils.format_error_response
          (.str (pstr "Unsupported file format: " ++ pstr "text/plain")) 400, false⟩ := by
  constructor
  · exact (C9_validate_image_format_spec.1 _).mpr (Or.inr (Or.inr (Or.inl rfl)))
  · exact C9_validate_image_format_spec.2 _ _ (by decide)

/-! ## Claim C5 -/

/-- Claim C5 (amended): for every decodable image, `normalize_image` converts
the colour mode to RGB when it is not already RGB; when either dimension
exceeds 1024 it downscales so that the larger dimension becomes exactly 1024
and the other dimension is scaled by the same ratio and then truncated to an
integer with Python `int()` (floor for these non-negative values — not
rounded to nearest); it re-encodes the file in place as quality-85 JPEG; and
it returns false on any failure (undecodable bytes, save raising) without
throwing. -/
theorem C5_normalize_image_spec :
    (∀ (f : StoredFile) (enc : Bool) (sz : Nat), f.image = none →
      image_utils.normalize_image f enc sz = (false, f, none)) ∧
    (∀ (f : StoredFile) (img : PILImage) (sz : Nat), f.image = some img →
      image_utils.normalize_image f true sz = (false, f, none)) ∧
    (∀ (f : StoredFile) (img : PILImage) (sz : Nat), f.image = some img →
      ∃ img2 : PILImage,
        image_utils.normalize_image f false sz =
          (true, { image := some img2, sizeBytes := sz }, some ⟨pstr "JPEG", 85⟩) ∧
        img2.mode = pstr "RGB" ∧
        img2.format = some (pstr "JPEG") ∧
        (img.width ≤ 1024 → img.height ≤ 1024 →
          img2.width = img.width ∧ img2.height = img.height) ∧
        ((1024 < img.width ∨ 1024 < img.height) →
          (img.height < img.width →
            img2.width = 1024 ∧
            img2.height = (⌊(img.height : ℚ) * (1024 / (img.width : ℚ))⌋).toNat) ∧
          (¬ img.height < img.width →
            img2.height = 1024 ∧
            img2.width = (⌊(img.width : ℚ) * (1024 / (img.height : ℚ))⌋).toNat))) := by
  refine ⟨?_, ?_, ?_⟩
  · intro f enc sz h
    simp [image_utils.normalize_image, h]
  · intro f img sz h
    simp [image_utils.normalize_image, h]
  · intro f img sz h
    refine ⟨⟨some (pstr "JPEG"), pstr "RGB",
            (image_utils.normDims img.width img.height).1,
            (image_utils.normDims img.width img.height).2⟩, ?_, rfl, rfl, ?_, ?_⟩
    · simp only [image_utils.normalize_image, h]
      by_cases hm : img.mode = pstr "RGB"
      · simp [hm]
      · simp [hm]
    · intro hw hh
      have hno : ¬ (1024 < img.width ∨ 1024 < img.height) := by omega
      simp [image_utils.normDims, hno]
    · intro hgt
      refine ⟨fun hwh => ?_, fun hwh => ?_⟩
      · simp [image_utils.normDims, hgt, hwh, image_utils.pyInt]
      · simp [image_utils.normDims, hgt, hwh, image_utils.pyInt]

/-- Claim C5, counterexample: a 2000×1001 RGB image.  The exact scaled height
is 1001·1024/2000 = 512.512; the code computes `int(...)` = 512, whereas
rounding to the nearest integer as claimed would give 513. -/
theorem C5_counterexample :
    image_utils.normalize_image ⟨some ⟨some (pstr "JPEG"), pstr "RGB", 2000, 1001⟩, 5000⟩
        false 4000 =
      (true, ⟨some ⟨some (pstr "JPEG"), pstr "RGB", 1024, 512⟩, 4000⟩,
       some ⟨pstr "JPEG", 85⟩) ∧
    round ((1001 : ℚ) * (1024 / (2000 : ℚ))) = 513 := by
  constructor
  · simp only [image_utils.normalize_image, image_utils.normDims, image_utils.pyInt]
    norm_num
    decide
  · rw [round_eq]
    norm_num

/-- Claim C5, witness: the spec's scenario-A image, 2000×1000 in palette
mode, normalizes to a 1024×512 RGB quality-85 JPEG. -/
theorem C5_witness :
    image_utils.normalize_image ⟨some ⟨some (pstr "PNG"), pstr "P", 2000, 1000⟩, 5000⟩
        false 4000 =
      (true, ⟨some ⟨some (pstr "JPEG"), pstr "RGB", 1024, 512⟩, 4000⟩,
       some ⟨pstr "JPEG", 85⟩) := by
  obtain ⟨img2, heq, hmode, hfmt, _, hgt⟩ :=
    C5_normalize_image_spec.2.2 ⟨some ⟨some (pstr "PNG"), pstr "P", 2000, 1000⟩, 5000⟩
      ⟨some (pstr "PNG"), pstr "P", 2000, 1000⟩ 4000 rfl
  obtain ⟨hw, hh⟩ := (hgt (by norm_num)).1 (by norm_num)
  have himg : img2 = ⟨some (pstr "JPEG"), pstr "RGB", 1024, 512⟩ := by
    obtain ⟨fo, mo, wi, he⟩ := img2
    simp only at hmode hfmt hw hh
    subst hmode hfmt hw
    simp only [PILImage.mk.injEq, true_and]
    rw [hh]
    norm_num
    decide
  rw [himg] at heq
  exact heq

/-! ## Claim C1 -/

/-- Claim C1: for every behaviour of the image processor and the model
client — including either of them raising — the orchestrator entry points
`classify_uploaded_image` and `classify_image_url` return a dictionary that
is either the classification result (the classifier's dict with the service
timing merged) or a single-field error record `{error: message}`; no raise
escapes the boundary (in the model, every raising path of the translated
`try` body lands in an `errObj`). -/
theorem C1_orchestrator_total_boundary
    (filename url : PyStr)
    (proc procU : FS → Except (PyStr × FS) ((PyStr × Bool) × FS))
    (classifier classifierU : PyStr → Except PyStr Json)
    (ioRaises ioRaisesU : Bool)
    (t tU : ClassificationService.SvcTimes) (fs fsU : FS) :
    ((∃ msg, (ClassificationService.classify_uploaded_image
        filename proc classifier ioRaises t fs).1 = ClassificationService.errObj msg) ∨
      (∃ (result result2 : Json) (image_path : PyStr),
        classifier image_path = .ok result ∧
        ClassificationService.add_service_timing result t = .ok result2 ∧
        (ClassificationService.classify_uploaded_image
          filename proc classifier ioRaises t fs).1 = result2)) ∧
    ((∃ msg, (ClassificationService.classify_image_url
        url procU classifierU ioRaisesU tU fsU).1 = ClassificationService.errObj msg) ∨
      (∃ (result result2 : Json) (image_path : PyStr),
        classifierU image_path = .ok result ∧
        ClassificationService.add_service_timing result tU = .ok result2 ∧
        (ClassificationService.classify_image_url
          url procU classifierU ioRaisesU tU fsU).1 = result2)) := by
  constructor
  · cases hp : proc fs with
    | error e =>
      obtain ⟨msg, fs1⟩ := e
      exact Or.inl ⟨pstr "Error classifying uploaded image: " ++ msg,
        by simp [ClassificationService.classify_uploaded_image, hp]⟩
    | ok v =>
      obtain ⟨⟨image_path, success⟩, fs1⟩ := v
      cases success with
      | false =>
        exact Or.inl ⟨pstr "Failed to process the uploaded image: " ++ filename,
          by simp [ClassificationService.classify_uploaded_image, hp]⟩
      | true =>
        cases hc : classifier image_path with
        | error msg =>
          exact Or.inl ⟨pstr "Error classifying uploaded image: " ++ msg,
            by simp [ClassificationService.classify_uploaded_image, hp, hc]⟩
        | ok result =>
          cases ht : ClassificationService.add_service_timing result t with
          | error msg =>
            exact Or.inl ⟨pstr "Error classifying uploaded image: " ++ msg,
              by simp [ClassificationService.classify_uploaded_image, hp, hc, ht]⟩
          | ok result2 =>
            exact Or.inr ⟨result, result2, image_path, hc, ht,
              by simp [ClassificationService.classify_uploaded_image, hp, hc, ht]⟩
  · cases hp : procU fsU with
    | error e =>
      obtain ⟨msg, fs1⟩ := e
      exact Or.inl ⟨pstr "Error classifying image URL: " ++ msg,
        by simp [ClassificationService.classify_image_url, hp]⟩
    | ok v =>
      obtain ⟨⟨image_path, success⟩, fs1⟩ := v
      cases success with
      | false =>
        exact Or.inl ⟨pstr "Failed to process the image URL: " ++ url,
          by simp [ClassificationService.classify_image_url, hp]⟩
      | true =>
        cases hc : classifierU image_path with
        | error msg =>
          exact Or.inl ⟨pstr "Error classifying image URL: " ++ msg,
            by simp [ClassificationService.classify_image_url, hp, hc]⟩
        | ok result =>
          cases ht : ClassificationService.add_service_timing result tU with
          | error msg =>
            exact Or.inl ⟨pstr "Error classifying image URL: " ++ msg,
              by simp [ClassificationService.classify_image_url, hp, hc, ht]⟩
          | ok result2 =>
            exact Or.inr ⟨result, result2, image_path, hc, ht,
              by simp [ClassificationService.classify_image_url, hp, hc, ht]⟩

/-! ## Claim C8 -/

/-- Claim C8: `_save_results_to_file` derives the results path
deterministically from the image identifier — basename with its extension
stripped plus the fixed suffix `_results.json`, joined to the configured
data directory — and writes the result serialized as indented JSON; on an
I/O failure it catches the exception and returns `("", False)` leaving the
filesystem unchanged; and the service returns the identical classification
result whether the save succeeded or failed. -/
theorem C8_save_results_contract :
    (∀ (result : Json) (image_path : PyStr) (fs : FS),
      ClassificationService._save_results_to_file result image_path false fs =
        ((pyJoin DATA_DIR ((pySplitext (pyBasename image_path)).1 ++ pstr "_results.json"),
          true),
         fsWrite fs
           (pyJoin DATA_DIR ((pySplitext (pyBasename image_path)).1 ++ pstr "_results.json"))
           (.textFile (pyJsonDumpsIndent2 result)))) ∧
    (∀ (result : Json) (image_path : PyStr) (fs : FS),
      ClassificationService._save_results_to_file result image_path true fs =
        (([], false), fs)) ∧
    (∀ (filename : PyStr) (proc : FS → Except (PyStr × FS) ((PyStr × Bool) × FS))
       (classifier : PyStr → Except PyStr Json)
       (t : ClassificationService.SvcTimes) (fs : FS),
      (ClassificationService.classify_uploaded_image filename proc classifier true t fs).1 =
      (ClassificationService.classify_uploaded_image filename proc classifier false t fs).1) ∧
    (∀ (url : PyStr) (proc : FS → Except (PyStr × FS) ((PyStr × Bool) × FS))
       (classifier : PyStr → Except PyStr Json)
       (t : ClassificationService.SvcTimes) (fs : FS),
      (ClassificationService.classify_image_url url proc classifier true t fs).1 =
      (ClassificationService.classify_image_url url proc classifier false t fs).1) := by
  refine ⟨fun result image_path fs => rfl, fun result image_path fs => rfl, ?_, ?_⟩
  · intro filename proc classifier t fs
    cases hp : proc fs with
    | error e =>
      obtain ⟨msg, fs1⟩ := e
      simp [ClassificationService.classify_uploaded_image, hp]
    | ok v =>
      obtain ⟨⟨image_path, success⟩, fs1⟩ := v
      cases success with
      | false => simp [ClassificationService.classify_uploaded_image, hp]
      | true =>
        cases hc : classifier image_path with
        | error msg => simp [ClassificationService.classify_uploaded_image, hp, hc]
        | ok result =>
          cases ht : ClassificationService.add_service_timing result t with
          | error msg => simp [ClassificationService.classify_uploaded_image, hp, hc, ht]
          | ok result2 => simp [ClassificationService.classify_uploaded_image, hp, hc, ht]
  · intro url proc classifier t fs
    cases hp : proc fs with
    | error e =>
      obtain ⟨msg, fs1⟩ := e
      simp [ClassificationService.classify_image_url, hp]
    | ok v =>
      obtain ⟨⟨image_path, success⟩, fs1⟩ := v
      cases success with
      | false => simp [ClassificationService.classify_image_url, hp]
      | true =>
        cases hc : classifier image_path with
        | error msg => simp [ClassificationService.classify_image_url, hp, hc]
        | ok result =>
          cases ht : ClassificationService.add_service_timing result t with
          | error msg => simp [ClassificationService.classify_image_url, hp, hc, ht]
          | ok result2 => simp [ClassificationService.classify_image_url, hp, hc, ht]

/-! ## Claim C6 -/

/-- Claim C6: whenever validation or normalization of the stored image fails
(`_process_image` returns failure), the orchestrator returns exactly
`{error: "Failed to process the uploaded image: <original filename>"}` for
uploads and `{error: "Failed to process the image URL: <url>"}` for URLs,
the returned filesystem is the initial one with the image artifact removed
(so the classification and persistence stages were never reached — the
result is the same for every classifier and save behaviour — and no
artifact remains on disk). -/
theorem C6_processing_failure_cleanup :
    (∀ (file : ImageProcessor.UploadFile) (orc : ImageProcessor.ProcOracle)
       (classifier : PyStr → Except PyStr Json) (ioRaises : Bool)
       (t : ClassificationService.SvcTimes) (fs : FS),
      file.readRaises = false →
      (ImageProcessor._process_image ⟨file.bytesDecodeTo, file.byteLen⟩ orc).1 = false →
      ClassificationService.classify_uploaded_image file.filename
          (fun fs0 => .ok (ImageProcessor.process_uploaded_image file orc fs0))
          classifier ioRaises t fs =
        (ClassificationService.errObj
            (pstr "Failed to process the uploaded image: " ++ file.filename),
         fsRemove fs (pyJoin DATA_DIR (orc.uuid ++ pstr ".jpg"))) ∧
      fsHas (fsRemove fs (pyJoin DATA_DIR (orc.uuid ++ pstr ".jpg")))
          (pyJoin DATA_DIR (orc.uuid ++ pstr ".jpg")) = false) ∧
    (∀ (url : PyStr) (fetch : ImageProcessor.UrlFetch) (orc : ImageProcessor.ProcOracle)
       (classifier : PyStr → Except PyStr Json) (ioRaises : Bool)
       (t : ClassificationService.SvcTimes) (fs : FS),
      fetch.raises = false → fetch.status = 200 →
      (ImageProcessor._process_image ⟨fetch.bytesDecodeTo, fetch.byteLen⟩ orc).1 = false →
      ClassificationService.classify_image_url url
          (fun fs0 => .ok (ImageProcessor.process_image_url fetch orc fs0))
          classifier ioRaises t fs =
        (ClassificationService.errObj
            (pstr "Failed to process the image URL: " ++ url),
         fsRemove fs (pyJoin DATA_DIR (orc.uuid ++ pstr ".jpg"))) ∧
      fsHas (fsRemove fs (pyJoin DATA_DIR (orc.uuid ++ pstr ".jpg")))
          (pyJoin DATA_DIR (orc.uuid ++ pstr ".jpg")) = false) := by
  constructor
  · intro file orc classifier ioRaises t fs hread hfail
    have hproc : ImageProcessor.process_uploaded_image file orc fs =
        (([], false),
         fsRemove fs (pyJoin DATA_DIR (orc.uuid ++ pstr ".jpg"))) := by
      simp only [ImageProcessor.process_uploaded_image, hread, Bool.false_eq_true, if_false,
        hfail, fsRemove_write]
    refine ⟨?_, fsHas_remove fs _⟩
    simp [ClassificationService.classify_uploaded_image, hproc]
  · intro url fetch orc classifier ioRaises t fs hraise hstatus hfail
    have hproc : ImageProcessor.process_image_url fetch orc fs =
        (([], false),
         fsRemove fs (pyJoin DATA_DIR (orc.uuid ++ pstr ".jpg"))) := by
      simp only [ImageProcessor.process_image_url, hraise, Bool.false_eq_true, if_false,
        hstatus, hfail, fsRemove_write]
      simp
    refine ⟨?_, fsHas_remove fs _⟩
    simp [ClassificationService.classify_image_url, hproc]

/-- Claim C6, witness: an upload whose bytes do not decode as an image is
rejected with the exact error record, the artifact is removed, and the
(arbitrary concrete) classifier is never consulted. -/
theorem C6_witness :
    ClassificationService.classify_uploaded_image (pstr "cat.png")
        (fun fs0 => .ok (ImageProcessor.process_uploaded_image
          ⟨pstr "cat.png", none, 100, false⟩ ⟨pstr "u1", false, 50⟩ fs0))
        (fun _ => .error (pstr "unreached")) false
        ⟨.null, .null, .null⟩ [] =
      (ClassificationService.errObj
          (pstr "Failed to process the uploaded image: " ++ pstr "cat.png"),
       fsRemove [] (pyJoin DATA_DIR (pstr "u1" ++ pstr ".jpg"))) ∧
    fsHas (fsRemove ([] : FS) (pyJoin DATA_DIR (pstr "u1" ++ pstr ".jpg")))
        (pyJoin DATA_DIR (pstr "u1" ++ pstr ".jpg")) = false :=
  C6_processing_failure_cleanup.1 ⟨pstr "cat.png", none, 100, false⟩ ⟨pstr "u1", false, 50⟩
    (fun _ => .error (pstr "unreached")) false ⟨.null, .null, .null⟩ [] rfl (by decide)

/-! ## Claim C7 -/

/-- Claim C7: when the image was successfully acquired and normalized and the
remote classification call raises a transport failure, the orchestrator
returns an error record carrying the underlying message (prefixed by
`Error classifying uploaded image: `), the filesystem is exactly the one the
processor produced — so no results file is written (only the artifact path
differs from the initial filesystem) — and the acquired image artifact is
left on disk. -/
theorem C7_transport_failure_frame
    (file : ImageProcessor.UploadFile) (orc : ImageProcessor.ProcOracle)
    (msg : PyStr) (mt : OpenAIModel.ModelTimes) (ioRaises : Bool)
    (t : ClassificationService.SvcTimes) (fs : FS)
    (hread : file.readRaises = false)
    (hok : (ImageProcessor._process_image ⟨file.bytesDecodeTo, file.byteLen⟩ orc).1 = true) :
    OpenAIModel.classify_image (pyJoin DATA_DIR (orc.uuid ++ pstr ".jpg"))
        false (.raises msg) mt = .error msg ∧
    ClassificationService.classify_uploaded_image file.filename
        (fun fs0 => .ok (ImageProcessor.process_uploaded_image file orc fs0))
        (fun p => OpenAIModel.classify_image p false (.raises msg) mt) ioRaises t fs =
      (ClassificationService.errObj (pstr "Error classifying uploaded image: " ++ msg),
       (ImageProcessor.process_uploaded_image file orc fs).2) ∧
    (ImageProcessor.process_uploaded_image file orc fs).1 =
      (pyJoin DATA_DIR (orc.uuid ++ pstr ".jpg"), true) ∧
    fsHas (ImageProcessor.process_uploaded_image file orc fs).2
      (pyJoin DATA_DIR (orc.uuid ++ pstr ".jpg")) = true ∧
    (∀ q, q ≠ pyJoin DATA_DIR (orc.uuid ++ pstr ".jpg") →
      fsHas (ImageProcessor.process_uploaded_image file orc fs).2 q = fsHas fs q) := by
  have hproc : ImageProcessor.process_uploaded_image file orc fs =
      ((pyJoin DATA_DIR (orc.uuid ++ pstr ".jpg"), true),
       fsWrite
         (fsWrite fs (pyJoin DATA_DIR (orc.uuid ++ pstr ".jpg"))
           (.imageFile ⟨file.bytesDecodeTo, file.byteLen⟩))
         (pyJoin DATA_DIR (orc.uuid ++ pstr ".jpg"))
         (.imageFile
           (ImageProcessor._process_image ⟨file.bytesDecodeTo, file.byteLen⟩ orc).2)) := by
    simp only [ImageProcessor.process_uploaded_image, hread, Bool.false_eq_true, if_false,
      hok, if_true]
  refine ⟨rfl, ?_, ?_, ?_, ?_⟩
  · simp [ClassificationService.classify_uploaded_image, hproc, OpenAIModel.classify_image]
  · rw [hproc]
  · rw [hproc]
    exact fsHas_write_self _ _ _
  · intro q hq
    rw [hproc]
    simp only []
    rw [fsHas_write_ne _ _ hq, fsHas_write_ne _ _ hq]

/-- Claim C7, witness: a decodable small upload followed by a transport
failure `timeout` yields the prefixed error record, the artifact remains,
and no other path (in particular no results file) is touched. -/
theorem C7_witness :
    ClassificationService.classify_uploaded_image (pstr "cat.png")
        (fun fs0 => .ok (ImageProcessor.process_uploaded_image
          ⟨pstr "cat.png", some ⟨some (pstr "PNG"), pstr "RGB", 10, 10⟩, 100, false⟩
          ⟨pstr "u1", false, 50⟩ fs0))
        (fun p => OpenAIModel.classify_image p false (.raises (pstr "timeout"))
          ⟨.null, .null, .null, .null⟩) false ⟨.null, .null, .null⟩ [] =
      (ClassificationService.errObj
          (pstr "Error classifying uploaded image: " ++ pstr "timeout"),
       (ImageProcessor.process_uploaded_image
          ⟨pstr "cat.png", some ⟨some (pstr "PNG"), pstr "RGB", 10, 10⟩, 100, false⟩
          ⟨pstr "u1", false, 50⟩ []).2) ∧
    fsHas (ImageProcessor.process_uploaded_image
          ⟨pstr "cat.png", some ⟨some (pstr "PNG"), pstr "RGB", 10, 10⟩, 100, false⟩
          ⟨pstr "u1", false, 50⟩ []).2
        (pyJoin DATA_DIR (pstr "u1" ++ pstr ".jpg")) = true := by
  have h := C7_transport_failure_frame
    ⟨pstr "cat.png", some ⟨some (pstr "PNG"), pstr "RGB", 10, 10⟩, 100, false⟩
    ⟨pstr "u1", false, 50⟩ (pstr "timeout") ⟨.null, .null, .null, .null⟩ false
    ⟨.null, .null, .null⟩ [] rfl (by decide)
  exact ⟨h.2.1, h.2.2.2.1⟩

/-! ## Claim C2 -/

/-- Claim C2 (amended): response parsing follows the three-case
fence-stripping algorithm of `_process_response`; consequently, for any JSON
object whose serialized text does not itself contain the ``` fence marker,
the three wrappings — ```json fence, bare ``` fence, and unwrapped — all
parse to the identical object with the image path attached under
`image_path`. -/
theorem C2_fence_stripping_equivalence (s p : PyStr) (o : JsonObj)
    (hnofence : findSub OpenAIModel.fence s = none)
    (hparse : pyJsonLoads (pyStrip s) = some (.obj o)) :
    OpenAIModel._process_response
        (some (OpenAIModel.fenceJson ++ '\n' :: (s ++ '\n' :: OpenAIModel.fence))) p =
      .ok (.obj (objSet o (pstr "image_path") (.str p))) ∧
    OpenAIModel._process_response
        (some (OpenAIModel.fence ++ '\n' :: (s ++ '\n' :: OpenAIModel.fence))) p =
      .ok (.obj (objSet o (pstr "image_path") (.str p))) ∧
    OpenAIModel._process_response (some s) p =
      .ok (.obj (objSet o (pstr "image_path") (.str p))) := by
  refine ⟨?_, ?_, ?_⟩
  · simp only [OpenAIModel._process_response, extract_wrapJson s hnofence, hparse]
  · simp only [OpenAIModel._process_response, extract_wrapBare s hnofence, hparse]
  · simp only [OpenAIModel._process_response, extract_unwrapped s hnofence, hparse]

/-- Claim C2, counterexample: the JSON object `{"a": "```"}` is valid JSON,
but unwrapped it triggers the bare-fence branch of the stripping algorithm,
the extracted payload fails to parse, and the code returns the degraded
record instead of the parsed object — so the three wrappings do not all
parse to the identical object for arbitrary JSON objects. -/
theorem C2_counterexample :
    pyJsonLoads (pstr "\x7b\"a\": \"```\"\x7d") =
      some (.obj [(pstr "a", .str (pstr "```"))]) ∧
    OpenAIModel._process_response (some (pstr "\x7b\"a\": \"```\"\x7d")) (pstr "img.jpg") =
      .ok (OpenAIModel.degradedResult (pstr "img.jpg") (pstr "\x7b\"a\": \"```\"\x7d")) ∧
    ¬ (OpenAIModel._process_response (some (pstr "\x7b\"a\": \"```\"\x7d")) (pstr "img.jpg") =
        .ok (.obj (objSet [(pstr "a", .str (pstr "```"))] (pstr "image_path")
            (.str (pstr "img.jpg"))))) := by
  refine ⟨rfl, rfl, ?_⟩
  intro hcontra
  have h1 := congrArg (fun x => match x with
    | Except.ok (Json.obj ob) => objHasKey ob (pstr "raw_response")
    | _ => false) hcontra
  exact absurd h1 (by decide)

/-- Claim C2, witness: the object `{"a": 1}` under all three wrappings. -/
theorem C2_witness :
    findSub OpenAIModel.fence (pstr "\x7b\"a\": 1\x7d") = none ∧
    pyJsonLoads (pyStrip (pstr "\x7b\"a\": 1\x7d")) =
      some (.obj [(pstr "a", .num (pstr "1"))]) ∧
    OpenAIModel._process_response (some (pstr "\x7b\"a\": 1\x7d")) (pstr "x.jpg") =
      .ok (.obj (objSet [(pstr "a", .num (pstr "1"))] (pstr "image_path")
          (.str (pstr "x.jpg")))) := by
  refine ⟨by decide, rfl, ?_⟩
  exact (C2_fence_stripping_equivalence (pstr "\x7b\"a\": 1\x7d") (pstr "x.jpg")
    [(pstr "a", .num (pstr "1"))] (by decide) rfl).2.2

/-! ## Claim C3 -/

/-- Claim C3 (amended): for every model-response text whose fence-stripped
payload fails strict JSON parsing, `_process_response` returns the degraded
result `{image_path, error: "Failed to parse model response",
raw_response: <original text, preserved exactly>}` without raising, and it
propagates out of the model client and the classification service as a
normal return value (not an exception); at the `/classify` endpoint,
however, any service result carrying an `error` key — the degraded result
included — is converted into a 500 error envelope rather than returned as a
success. -/
theorem C3_parse_failure_degraded (content p ct : PyStr) (o : JsonObj) (v : Json)
    (hfail : pyJsonLoads (OpenAIModel.extract_json_str content) = none)
    (hct : api_utils.validate_image_format ct = true)
    (he : objGet o (pstr "error") = some v) :
    OpenAIModel._process_response (some content) p =
      .ok (OpenAIModel.degradedResult p content) ∧
    endpoints.classify_image ct o =
      ⟨500, api_utils.format_error_response v 500, true⟩ := by
  constructor
  · simp only [OpenAIModel._process_response, hfail]
  · simp [endpoints.classify_image, hct, he]

/-- Claim C3, counterexample: with the repository test's unparseable response
`This is not valid JSON`, `_process_response` does return the degraded record
as a normal value, but the endpoint — the caller the claim cites — answers
with a 500 error envelope, not a successful response. -/
theorem C3_counterexample :
    OpenAIModel._process_response (some (pstr "This is not valid JSON")) (pstr "x.jpg") =
      .ok (OpenAIModel.degradedResult (pstr "x.jpg") (pstr "This is not valid JSON")) ∧
    endpoints.classify_image (pstr "image/png")
        [(pstr "image_path", .str (pstr "x.jpg")),
         (pstr "error", .str (pstr "Failed to parse model response")),
         (pstr "raw_response", .str (pstr "This is not valid JSON"))] =
      ⟨500, api_utils.format_error_response
          (.str (pstr "Failed to parse model response")) 500, true⟩ ∧
    (endpoints.classify_image (pstr "image/png")
        [(pstr "image_path", .str (pstr "x.jpg")),
         (pstr "error", .str (pstr "Failed to parse model response")),
         (pstr "raw_response", .str (pstr "This is not valid JSON"))]).status ≠ 200 :=
  ⟨rfl, rfl, by decide⟩

/-- Claim C3, witness: the amended claim at the repository test's input. -/
theorem C3_witness :
    OpenAIModel._process_response (some (pstr "This is not valid JSON")) (pstr "x.jpg") =
      .ok (OpenAIModel.degradedResult (pstr "x.jpg") (pstr "This is not valid JSON")) ∧
    endpoints.classify_image (pstr "image/png")
        [(pstr "error", .str (pstr "Failed to parse model response"))] =
      ⟨500, api_utils.format_error_response
          (.str (pstr "Failed to parse model response")) 500, true⟩ :=
  C3_parse_failure_degraded (pstr "This is not valid JSON") (pstr "x.jpg")
    (pstr "image/png") [(pstr "error", .str (pstr "Failed to parse model response"))]
    (.str (pstr "Failed to parse model response")) rfl (by decide) rfl

/-! ## Claim C10 -/

/-- Claim C10: a successful (non-raising) return of `_process_response` is
either the parsed object with `image_path` attached or the degraded record
arising precisely from a JSON decode failure of the extracted payload; a
malformed response object (content extraction failing) is re-raised as a
hard failure; and the orchestrator converts such a hard failure into the
plain single-field record `{error: message}`, which carries no
`raw_response` field. -/
theorem C10_nondecode_exceptions_reraised :
    (∀ (content? : Option PyStr) (p : PyStr) (d : Json),
      OpenAIModel._process_response content? p = .ok d →
        (∃ content o, content? = some content ∧
          pyJsonLoads (OpenAIModel.extract_json_str content) = some (.obj o) ∧
          d = .obj (objSet o (pstr "image_path") (.str p))) ∨
        (∃ content, content? = some content ∧
          pyJsonLoads (OpenAIModel.extract_json_str content) = none ∧
          d = OpenAIModel.degradedResult p content)) ∧
    (∀ p : PyStr, OpenAIModel._process_response none p =
      .error (pstr "list index out of range")) ∧
    (∀ (filename image_path msg : PyStr) (ioRaises : Bool)
       (t : ClassificationService.SvcTimes) (fs fs1 : FS),
      ClassificationService.classify_uploaded_image filename
          (fun _ => .ok ((image_path, true), fs1)) (fun _ => .error msg) ioRaises t fs =
        (ClassificationService.errObj
            (pstr "Error classifying uploaded image: " ++ msg), fs1)) ∧
    (∀ m : PyStr, objHasKey [(pstr "error", Json.str m)] (pstr "raw_response") = false) := by
  refine ⟨?_, fun p => rfl, ?_, ?_⟩
  · intro content? p d h
    cases content? with
    | none => simp [OpenAIModel._process_response] at h
    | some content =>
      cases hp : pyJsonLoads (OpenAIModel.extract_json_str content) with
      | none =>
        right
        refine ⟨content, rfl, hp, ?_⟩
        simp only [OpenAIModel._process_response, hp] at h
        exact (Except.ok.inj h).symm
      | some v =>
        cases v with
        | obj ob =>
          left
          refine ⟨content, ob, rfl, hp, ?_⟩
          simp only [OpenAIModel._process_response, hp] at h
          exact (Except.ok.inj h).symm
        | null => simp [OpenAIModel._process_response, hp] at h
        | bool b => simp [OpenAIModel._process_response, hp] at h
        | num l => simp [OpenAIModel._process_response, hp] at h
        | str st => simp [OpenAIModel._process_response, hp] at h
        | arr xs => simp [OpenAIModel._process_response, hp] at h
  · intro filename image_path msg ioRaises t fs fs1
    simp [ClassificationService.classify_uploaded_image]
  · intro m
    rfl

/-- Claim C10, witness: the characterization applied at the unparseable
response, plus the orchestrator's conversion at a hard failure `boom`. -/
theorem C10_witness :
    pyJsonLoads (OpenAIModel.extract_json_str (pstr "not json")) = none ∧
    ClassificationService.classify_uploaded_image (pstr "c.png")
        (fun _ => .ok ((pstr "data/u1.jpg", true), ([] : FS)))
        (fun _ => .error (pstr "boom")) false ⟨.null, .null, .null⟩ [] =
      (ClassificationService.errObj
          (pstr "Error classifying uploaded image: " ++ pstr "boom"), ([] : FS)) := by
  constructor
  · have h := C10_nondecode_exceptions_reraised.1 (some (pstr "not json")) (pstr "x.jpg")
      (OpenAIModel.degradedResult (pstr "x.jpg") (pstr "not json")) rfl
    rcases h with ⟨c, ob, hc, hp, _⟩ | ⟨c, hc, hp, _⟩
    · obtain rfl : pstr "not json" = c := Option.some.inj hc
      rw [show pyJsonLoads (OpenAIModel.extract_json_str (pstr "not json")) = none from rfl]
        at hp
      cases hp
    · obtain rfl : pstr "not json" = c := Option.some.inj hc
      exact hp
  · exact C10_nondecode_exceptions_reraised.2.2.1 (pstr "c.png") (pstr "data/u1.jpg")
      (pstr "boom") false ⟨.null, .null, .null⟩ [] []
